import Mathlib

/-!
Shallow embedding of the `variant_ptr` library (src/variant_ptr.h) and its
rock-paper-scissors demo (src/main.cpp).

Modelling choices:
* C++ types are abstract identifiers (`TypeId := Nat`); `std::is_convertible`
  is an arbitrary Boolean relation `Conv` passed as a parameter, so theorems
  quantify over every possible conversion structure and counterexamples pick a
  concrete, realizable one.
* `size_t` arithmetic in `index_of_type` (the `-1` fallback and the `1 + _`
  accumulation) is carried out modulo `2^64` (`szMod`), exactly as unsigned
  wraparound does in a constant expression.
* A `variant_ptr<T0, Ts...>` is a record of the (nonempty) template type list
  (`ty0 :: tyRest`, mirroring `head<Ts...>`), the type-erased pointee `p`
  (`void* ptr_`; the pointee value itself is modelled, of model type `α`), and
  the stored tag `type_index` (`size_t type_index_`).
* A visitor is a function `TypeId → α → ε → β`: the `TypeId` argument is the
  static type `U` that `cast_and_visit<U>` re-interprets the erased address as
  (which overload of `TVisitor::visit` is selected), `α` the pointee, `ε` the
  extra-argument pack, `β` the common result type.
* A MultiVisitor is a function `List (TypeId × α) → β` from the list of
  already-resolved typed arguments, in order, to the result; `BindVisitor`
  becomes prepending one resolved argument.
* In the source, the not-yet-dispatched variant_ptrs travel through `visit` as
  its extra arguments and come back out unchanged at `cast_and_visit`; here the
  remaining list is captured in the continuation instead (so the recursion is
  structural), which is observationally identical because `visit` forwards its
  extras unchanged to the handler (lemma `VPtr.visit_eq_resolved`).
-/

namespace VariantPtr

/-- A C++ type, modelled as an abstract identifier. -/
abbrev TypeId := Nat

/-- `std::is_convertible<X, Y>::value`, modelled as an arbitrary Boolean
relation on type identifiers. -/
abbrev Conv := TypeId → TypeId → Bool

/-- The modulus of `size_t` arithmetic (64-bit). -/
def szMod : Nat := 2 ^ 64

/-- `index_of_type<X, Ts...>::value` (src/variant_ptr.h:27-41): the primary
template (empty list) yields `size_t(-1) = 2^64 - 1`; the specialization
yields `0` if `X` is convertible to the head, else `1 + index_of_type<X, Ts...>`
in `size_t` arithmetic (wrapping modulo `2^64`). -/
def index_of_type (conv : Conv) (X : TypeId) : List TypeId → Nat
  | [] => szMod - 1
  | Y :: Ts => if conv X Y then 0 else (1 + index_of_type conv X Ts) % szMod

/-- `variant_ptr<T0, Ts...>` (src/variant_ptr.h:82-164) over pointees of model
type `α`.  The template type list is `ty0 :: tyRest` (nonempty by construction,
as `head<Ts...>` requires); `p` is the erased pointee (`void* ptr_`);
`type_index` is `size_t type_index_`. -/
structure VPtr (α : Type) where
  ty0 : TypeId
  tyRest : List TypeId
  p : α
  type_index : Nat

/-- The full template type list `Ts...` of a `variant_ptr`. -/
def VPtr.types (v : VPtr α) : List TypeId := v.ty0 :: v.tyRest

/-- `variant_ptr::reset(X* ptr)` (src/variant_ptr.h:94-98): recompute the tag
as `index_of_type<X, Ts...>::value` and store the erased address. -/
def VPtr.reset (v : VPtr α) (conv : Conv) (X : TypeId) (ptr : α) : VPtr α :=
  { v with type_index := index_of_type conv X (v.ty0 :: v.tyRest), p := ptr }

/-- `variant_ptr::variant_ptr(X* ptr)` (src/variant_ptr.h:89-92): the
constructor delegates to `reset`. -/
def VPtr.construct (ty0 : TypeId) (tyRest : List TypeId) (conv : Conv)
    (X : TypeId) (ptr : α) : VPtr α :=
  VPtr.reset ⟨ty0, tyRest, ptr, 0⟩ conv X ptr

/-- `variant_ptr::has_type_impl` (src/variant_ptr.h:113-128).  The two C++
overloads: on a multi-element `TypeList<U, Us...>` compare the stored tag with
`length_of<Ts...> - length_of<U, Us...>` and on match test `is_same<X, U>`,
else recurse; on a single-element `TypeList<U>` return `is_same<X, U>` without
consulting the tag.  `N` is the full list length `length_of<Ts...>::value`.
The empty-list case has no corresponding C++ overload and is never reached
from `has_type` on the (nonempty) full list. -/
def has_type_impl (X : TypeId) (N tidx : Nat) : List TypeId → Bool
  | [] => false
  | [U] => X == U
  | U :: U2 :: Us =>
      if tidx = N - (Us.length + 2) then X == U
      else has_type_impl X N tidx (U2 :: Us)

/-- `variant_ptr::has_type<X>()` (src/variant_ptr.h:100-103): run
`has_type_impl` over the full type list. -/
def VPtr.has_type (v : VPtr α) (X : TypeId) : Bool :=
  has_type_impl X (v.ty0 :: v.tyRest).length v.type_index (v.ty0 :: v.tyRest)

/-- `variant_ptr::cast_and_visit<U>` (src/variant_ptr.h:131-136): re-interpret
the erased address as `U*` and call `visitor.visit(*casted_ptr, extras...)`.
The re-interpretation is modelled by passing the static type `U` to the
visitor. -/
def cast_and_visit (U : TypeId) (ptr : α) (visitor : TypeId → α → ε → β)
    (extras : ε) : β :=
  visitor U ptr extras

/-- `variant_ptr::visit_impl` (src/variant_ptr.h:139-160): linear scan over the
remaining type list; at `TypeList<U, Us...>` compare the stored tag with
`length_of<Ts...> - length_of<U, Us...>`, on match `cast_and_visit<U>`, else
recurse; the `TypeList<>` base case defensively `cast_and_visit`s to
`example_visitee_type` (the first type of the set), passed here as `fb`. -/
def visit_impl (fb : TypeId) (N tidx : Nat) (ptr : α)
    (visitor : TypeId → α → ε → β) (extras : ε) : List TypeId → β
  | [] => cast_and_visit fb ptr visitor extras
  | U :: Us =>
      if tidx = N - (Us.length + 1) then cast_and_visit U ptr visitor extras
      else visit_impl fb N tidx ptr visitor extras Us

/-- `variant_ptr::visit(visitor, extras...)` (src/variant_ptr.h:105-110): run
`visit_impl` over the full type list. -/
def VPtr.visit (v : VPtr α) (visitor : TypeId → α → ε → β) (extras : ε) : β :=
  visit_impl v.ty0 (v.ty0 :: v.tyRest).length v.type_index v.p visitor extras
    (v.ty0 :: v.tyRest)

/-- `BindVisitor` (src/variant_ptr.h:189-204): fix the first argument of a
MultiVisitor; `BindVisitor(m, e).visit(ts...) = m.visit(e, ts...)`. -/
def bind_visitor (M : List (TypeId × α) → β) (a : TypeId × α) :
    List (TypeId × α) → β :=
  fun args => M (a :: args)

/-- `MultiVisitorToSingleVisitor::visit` (src/variant_ptr.h:216-237), after the
current variant's value has been resolved to the typed argument `a`.  The
one-argument overload (no variants left) calls the wrapped MultiVisitor; the
multi-argument overload wraps a `BindVisitor` fixing `a` and dispatches the
next variant, the rest riding along (captured here, forwarded as visit extras
in the source; see the header comment). -/
def mvtsv_visit (M : List (TypeId × α) → β) (a : TypeId × α) :
    List (VPtr α) → β
  | [] => M [a]
  | v :: vs =>
      v.visit (fun U x (_ : Unit) => mvtsv_visit (bind_visitor M a) (U, x) vs) ()

/-- `apply_visitor` (src/variant_ptr.h:239-244): wrap the MultiVisitor in a
`MultiVisitorToSingleVisitor` and dispatch the first variant, the remaining
variants riding along. -/
def apply_visitor (M : List (TypeId × α) → β) (v : VPtr α)
    (vs : List (VPtr α)) : β :=
  v.visit (fun U x (_ : Unit) => mvtsv_visit M (U, x) vs) ()

/-- Modelled from the spec: `apply_multi_visitor<K>`, the arity-explicit
multi-dispatch entry point invoked in src/main.cpp:69-76 but not defined under
src/.  Per the spec (sections 4.3 and 6): signature
`R applyMultiDispatch<K>(multiVisitor, ref0, ..., ref(K-1), extraArgs...)`;
the declared arity `K` must equal the number of Tagged References supplied and
must be at least 1, a mismatch being a specialization-time (static) failure,
modelled as `none`; trailing extra arguments are forwarded to the MultiVisitor
after the `K` bound values.  The per-reference dispatch is the source's
`apply_visitor` machinery. -/
def apply_multi_visitor (K : Nat) (M : List (TypeId × α) → ε → β)
    (refs : List (VPtr α)) (extras : ε) : Option β :=
  if refs.length = K then
    match refs with
    | [] => none
    | v :: vs => some (apply_visitor (fun args => M args extras) v vs)
  else none

/-- The static type selected by the `visit_impl` scan: the member at the
position matching the stored tag, or the fallback `fb` when the list is
exhausted.  Pure companion of `visit_impl` with the same branch structure. -/
def scan_type (fb : TypeId) (N tidx : Nat) : List TypeId → TypeId
  | [] => fb
  | U :: Us => if tidx = N - (Us.length + 1) then U else scan_type fb N tidx Us

/-- Whether the `visit_impl` scan falls through to the defensive `TypeList<>`
base case.  Pure companion of `visit_impl` with the same branch structure. -/
def scan_hits_fallback (N tidx : Nat) : List TypeId → Bool
  | [] => true
  | _ :: Us =>
      if tidx = N - (Us.length + 1) then false else scan_hits_fallback N tidx Us

/-- The static type `visit` dispatches a given `variant_ptr` to. -/
def VPtr.resolved_type (v : VPtr α) : TypeId :=
  scan_type v.ty0 (v.ty0 :: v.tyRest).length v.type_index (v.ty0 :: v.tyRest)

/-- The typed argument a given `variant_ptr` resolves to under dispatch. -/
def VPtr.resolved (v : VPtr α) : TypeId × α := (v.resolved_type, v.p)

/-- The Type Set member at the position given by the stored tag (the type the
reference holds under the data-model invariant `tag` in range). -/
def VPtr.slot_type (v : VPtr α) : TypeId :=
  (v.ty0 :: v.tyRest).getD v.type_index v.ty0

/-- No conversions at all: `is_convertible` false everywhere (off-diagonal
behaviour of unrelated class types; used for no-match scenarios). -/
def conv_none : Conv := fun _ _ => false

/-- Exact-match conversions only: each type convertible to itself and nothing
else, as for the unrelated empty structs `Rock`, `Paper`, `Scissors` of
src/main.cpp (ids 0, 1, 2). -/
def conv_eq : Conv := fun a b => a == b

/-- The conversion structure of the Type Set `{long, int}` with `long = 0`,
`int = 1`: every type converts to itself, and `int` converts to `long`. -/
def conv_int_long : Conv := fun a b => a == b || (a == 1 && b == 0)

/-- `LosesTo` from src/main.cpp:23-40, on type ids `Rock = 0`, `Paper = 1`,
`Scissors = 2`: true exactly for (Rock, Paper), (Paper, Scissors),
(Scissors, Rock); the templated fallback returns false. -/
def loses_to (a b : TypeId) : Bool :=
  (a == 0 && b == 1) || (a == 1 && b == 2) || (a == 2 && b == 0)

/-- `LosesTo` as a MultiVisitor over resolved argument lists. -/
def loses_to_mv : List (TypeId × Nat) → Bool
  | [(a, _), (b, _)] => loses_to a b
  | _ => false

/-! ### Supporting lemmas about the scan, the tag computation and dispatch -/

/-- `visit_impl` calls the visitor exactly once, on the type its scan selects,
with the pointee and the extras forwarded unchanged. -/
theorem visit_impl_eq_scan (fb : TypeId) (N t : Nat) (ptr : α)
    (vis : TypeId → α → ε → β) (e : ε) :
    ∀ l : List TypeId, visit_impl fb N t ptr vis e l = vis (scan_type fb N t l) ptr e := by
  intro l
  induction l with
  | nil => rfl
  | cons U Us ih =>
      simp only [visit_impl, scan_type, cast_and_visit]
      split
      · rfl
      · exact ih

/-- On a window `l` of the full list (`l.length ≤ N`) with the tag inside the
window (`N - l.length ≤ t < N`), the scan selects the member at the position
given by the tag. -/
theorem scan_type_getD (fb : TypeId) (N t : Nat) :
    ∀ l : List TypeId, l.length ≤ N → N - l.length ≤ t → t < N →
      scan_type fb N t l = l.getD (t - (N - l.length)) fb := by
  intro l
  induction l with
  | nil =>
      intro _ h2 h3
      simp only [List.length_nil, Nat.sub_zero] at h2
      exact absurd h3 (by omega)
  | cons U Us ih =>
      intro h1 h2 h3
      simp only [scan_type, List.length_cons] at *
      split
      · case isTrue h =>
          have h0 : t - (N - (Us.length + 1)) = 0 := by omega
          rw [h0, List.getD_cons_zero]
      · case isFalse h =>
          have hs : t - (N - (Us.length + 1)) = (t - (N - Us.length)) + 1 := by omega
          rw [hs, List.getD_cons_succ]
          exact ih (by omega) (by omega) h3

/-- Under the same window conditions the scan never exhausts the list. -/
theorem scan_hits_fallback_eq_false (N t : Nat) :
    ∀ l : List TypeId, l.length ≤ N → N - l.length ≤ t → t < N →
      scan_hits_fallback N t l = false := by
  intro l
  induction l with
  | nil =>
      intro _ h2 h3
      simp only [List.length_nil, Nat.sub_zero] at h2
      exact absurd h3 (by omega)
  | cons U Us ih =>
      intro h1 h2 h3
      simp only [scan_hits_fallback, List.length_cons] at *
      split
      · rfl
      · case isFalse h => exact ih (by omega) (by omega) h3

/-- Under the same window conditions (and a nonempty window), `has_type_impl`
compares the queried type against the member at the tag's position. -/
theorem has_type_impl_getD (X : TypeId) (N t : Nat) (d : TypeId) :
    ∀ l : List TypeId, l ≠ [] → l.length ≤ N → N - l.length ≤ t → t < N →
      has_type_impl X N t l = (X == l.getD (t - (N - l.length)) d) := by
  intro l
  induction l with
  | nil => intro h; exact absurd rfl h
  | cons U Us ih =>
      cases Us with
      | nil =>
          intro _ h1 h2 h3
          simp only [has_type_impl, List.length_cons, List.length_nil] at *
          have h0 : t - (N - 1) = 0 := by omega
          rw [h0, List.getD_cons_zero]
      | cons U2 Us2 =>
          intro _ h1 h2 h3
          simp only [has_type_impl, List.length_cons] at *
          split
          · case isTrue h =>
              have h0 : t - (N - (Us2.length + 1 + 1)) = 0 := by omega
              rw [h0, List.getD_cons_zero]
          · case isFalse h =>
              have hs : t - (N - (Us2.length + 1 + 1)) = (t - (N - (Us2.length + 1))) + 1 := by
                omega
              rw [hs, List.getD_cons_succ]
              exact ih (List.cons_ne_nil _ _) (by omega) (by omega) h3

/-- When `X` is convertible to some member and the set is shorter than `2^64`,
the computed index is the index of the first convertible member. -/
theorem index_of_type_eq_findIdx (conv : Conv) (X : TypeId) :
    ∀ l : List TypeId, l.length < szMod → (∃ Y ∈ l, conv X Y) →
      index_of_type conv X l = l.findIdx (conv X) := by
  intro l
  induction l with
  | nil => intro _ hex; simp at hex
  | cons Y Ts ih =>
      intro hlen hex
      by_cases h : conv X Y = true
      · simp [index_of_type, List.findIdx_cons, h]
      · have hY : conv X Y = false := by simpa using h
        have hex2 : ∃ Z ∈ Ts, conv X Z = true := by
          rcases hex with ⟨Z, hZ, hc⟩
          rcases List.mem_cons.mp hZ with hZY | hZT
          · rw [hZY] at hc; exact absurd hc (by simp [hY])
          · exact ⟨Z, hZT, hc⟩
        have hTs : Ts.length < szMod := by
          simp only [List.length_cons] at hlen; omega
        have hfi : Ts.findIdx (conv X) < Ts.length := List.findIdx_lt_length_of_exists hex2
        simp only [index_of_type, List.findIdx_cons, hY, cond_false, Bool.false_eq_true,
          if_false]
        rw [ih hTs hex2, Nat.mod_eq_of_lt (by omega)]
        omega

/-- When `X` is convertible to no member of a nonempty set shorter than
`2^64`, the `size_t` arithmetic wraps the index around to `length - 1`. -/
theorem index_of_type_of_no_match (conv : Conv) (X : TypeId) :
    ∀ l : List TypeId, l ≠ [] → l.length < szMod → (∀ Y ∈ l, conv X Y = false) →
      index_of_type conv X l = l.length - 1 := by
  intro l
  induction l with
  | nil => intro h; exact absurd rfl h
  | cons Y Ts ih =>
      intro _ hlen hnone
      have hY : conv X Y = false := hnone Y (List.mem_cons_self _ _)
      simp only [index_of_type, if_neg (by simp [hY] : ¬ (conv X Y = true))]
      cases Ts with
      | nil =>
          show (1 + index_of_type conv X []) % szMod = _
          have hone : (1 : Nat) + (szMod - 1) = szMod := by
            have : 0 < szMod := by norm_num [szMod]
            omega
          simp only [index_of_type, hone, Nat.mod_self, List.length_cons,
            List.length_nil]
      | cons Y2 Ts2 =>
          have hrec := ih (List.cons_ne_nil _ _)
            (by simp only [List.length_cons] at hlen ⊢; omega)
            (fun Z hZ => hnone Z (List.mem_cons_of_mem _ hZ))
          rw [hrec]
          simp only [List.length_cons] at hlen ⊢
          rw [Nat.mod_eq_of_lt (by omega)]
          omega

/-- For a nonempty set shorter than `2^64` the computed index is always in
range, whether or not a convertible member exists. -/
theorem index_of_type_lt (conv : Conv) (X : TypeId) (l : List TypeId)
    (hne : l ≠ []) (hlen : l.length < szMod) :
    index_of_type conv X l < l.length := by
  by_cases hex : ∃ Y ∈ l, conv X Y = true
  · rw [index_of_type_eq_findIdx conv X l hlen hex]
    exact List.findIdx_lt_length_of_exists hex
  · push_neg at hex
    have hnone : ∀ Y ∈ l, conv X Y = false := fun Y hY => by simpa using hex Y hY
    rw [index_of_type_of_no_match conv X l hne hlen hnone]
    have : 0 < l.length := List.length_pos.mpr hne
    omega

/-- `visit` forwards the pointee and the extras unchanged to the handler of
the type its scan resolves. -/
theorem VPtr.visit_eq_resolved (v : VPtr α) (vis : TypeId → α → ε → β) (e : ε) :
    v.visit vis e = vis v.resolved_type v.p e :=
  visit_impl_eq_scan v.ty0 _ v.type_index v.p vis e (v.ty0 :: v.tyRest)

/-- With the tag in range, the scan resolves the member at the tag's
position. -/
theorem VPtr.resolved_type_eq_slot (v : VPtr α)
    (h : v.type_index < (v.ty0 :: v.tyRest).length) :
    v.resolved_type = v.slot_type := by
  unfold VPtr.resolved_type VPtr.slot_type
  rw [scan_type_getD v.ty0 _ v.type_index (v.ty0 :: v.tyRest) (le_refl _) (by omega) h]
  simp

/-- With the tag in range, `has_type X` is exactly the comparison of `X`
against the member at the tag's position. -/
theorem VPtr.has_type_eq_slot (v : VPtr α) (X : TypeId)
    (h : v.type_index < (v.ty0 :: v.tyRest).length) :
    v.has_type X = (X == v.slot_type) := by
  unfold VPtr.has_type VPtr.slot_type
  rw [has_type_impl_getD X _ v.type_index v.ty0 (v.ty0 :: v.tyRest)
    (List.cons_ne_nil _ _) (le_refl _) (by omega) h]
  simp

/-- The adapter chain accumulates the resolved arguments in order and finally
hands the whole list to the wrapped MultiVisitor. -/
theorem mvtsv_visit_eq :
    ∀ (vs : List (VPtr α)) (M : List (TypeId × α) → β) (a : TypeId × α),
      mvtsv_visit M a vs = M (a :: vs.map VPtr.resolved) := by
  intro vs
  induction vs with
  | nil => intro M a; rfl
  | cons v vs ih =>
      intro M a
      simp only [mvtsv_visit]
      rw [VPtr.visit_eq_resolved, ih]
      simp [bind_visitor, VPtr.resolved]

/-- `apply_visitor` hands the MultiVisitor the resolved arguments of all the
variant_ptrs, in the order they were passed. -/
theorem apply_visitor_eq (M : List (TypeId × α) → β) (v : VPtr α)
    (vs : List (VPtr α)) :
    apply_visitor M v vs = M ((v :: vs).map VPtr.resolved) := by
  unfold apply_visitor
  rw [VPtr.visit_eq_resolved, mvtsv_visit_eq]
  simp [VPtr.resolved]

/-! ### Claim theorems -/

/-- C1 counterexample: Type Set `{long = 0, int = 1}` (with `int` implicitly
convertible to `long`), a reference constructed over an `int` value (`T = 1`).
The identity-on-type visitor's handler for `T = 1` would return `1`, but
`visit` returns `0`: it invokes the `long` slot's handler, another type's
handler, contradicting the claim. -/
theorem C1_counterexample :
    (VPtr.construct 0 [1] conv_int_long 1 (42 : Nat)).visit
        (fun U (_ : Nat) (_ : Unit) => U) () = 0 ∧ (0 : TypeId) ≠ 1 := by
  decide

/-- C1 (amended): `visit` locates the slot whose position equals the stored
tag (the index of the first Type Set member `T` is convertible to) and invokes
that slot's handler with the referenced value followed by the extras,
returning its result.  Whenever the member at that slot is exactly `T` — in
particular for pairwise non-convertible Type Sets — this is `T`'s own handler,
never another type's. -/
theorem C1_visit_invokes_tagged_slot_handler (conv : Conv) (T ty0 : TypeId)
    (rest : List TypeId) (ptr : α) (visitor : TypeId → α → ε → β) (extras : ε)
    (hidx : index_of_type conv T (ty0 :: rest) < (ty0 :: rest).length)
    (hslot : (ty0 :: rest).getD (index_of_type conv T (ty0 :: rest)) ty0 = T) :
    (VPtr.construct ty0 rest conv T ptr).visit visitor extras =
      visitor T ptr extras := by
  rw [VPtr.visit_eq_resolved,
    VPtr.resolved_type_eq_slot (VPtr.construct ty0 rest conv T ptr) hidx]
  simp only [VPtr.construct, VPtr.reset, VPtr.slot_type]
  rw [hslot]

/-- C1 witness: Rock/Paper/Scissors set `{0, 1, 2}` with exact-match
conversions; a reference over a Paper value (`T = 1`, pointee `5`) dispatches
to the Paper handler, which receives the value. -/
theorem C1_witness :
    (index_of_type conv_eq 1 [0, 1, 2] < ([0, 1, 2] : List TypeId).length ∧
      ([0, 1, 2] : List TypeId).getD (index_of_type conv_eq 1 [0, 1, 2]) 0 = 1) ∧
    (VPtr.construct 0 [1, 2] conv_eq 1 (5 : Nat)).visit
        (fun U x (_ : Unit) => (U, x)) () = (1, 5) :=
  ⟨by decide,
    C1_visit_invokes_tagged_slot_handler conv_eq 1 0 [1, 2] 5
      (fun U x (_ : Unit) => (U, x)) () (by decide) (by decide)⟩

/-- C2: for every arity `K ≥ 1` and `K` references with in-range tags, the
multi-dispatch entry point returns the result of the MultiVisitor's handler
matching the tuple of held types (slot at each stored tag), with the resolved
values in reference order and the trailing extras after the bound values. -/
theorem C2_multi_dispatch_invokes_matching_tuple_handler (K : Nat)
    (M : List (TypeId × α) → ε → β) (refs : List (VPtr α)) (extras : ε)
    (hK : refs.length = K) (hpos : 1 ≤ K)
    (htags : ∀ r ∈ refs, r.type_index < (r.ty0 :: r.tyRest).length) :
    apply_multi_visitor K M refs extras =
      some (M (refs.map fun r => (r.slot_type, r.p)) extras) := by
  cases refs with
  | nil => rw [List.length_nil] at hK; omega
  | cons v vs =>
      unfold apply_multi_visitor
      rw [if_pos hK]
      show some (apply_visitor (fun args => M args extras) v vs) = _
      rw [apply_visitor_eq]
      have hmap : (v :: vs).map VPtr.resolved =
          (v :: vs).map fun r => (r.slot_type, r.p) :=
        List.map_congr_left fun r hr => by
          simp [VPtr.resolved, VPtr.resolved_type_eq_slot r (htags r hr)]
      rw [hmap]

/-- C2 witness: two references over `{0, 1, 2}` holding Scissors (`2`, pointee
`7`) and Rock (`0`, pointee `8`); the handler receives the typed values in
order followed by the extra argument `99`. -/
theorem C2_witness :
    ((1 : Nat) ≤ 2 ∧
      ∀ r ∈ [VPtr.construct 0 [1, 2] conv_eq 2 (7 : Nat),
             VPtr.construct 0 [1, 2] conv_eq 0 (8 : Nat)],
        r.type_index < (r.ty0 :: r.tyRest).length) ∧
    apply_multi_visitor 2 (fun args (e : Nat) => (args, e))
        [VPtr.construct 0 [1, 2] conv_eq 2 (7 : Nat),
         VPtr.construct 0 [1, 2] conv_eq 0 (8 : Nat)] 99 =
      some ([(2, 7), (0, 8)], 99) :=
  ⟨⟨by decide, by decide⟩,
    C2_multi_dispatch_invokes_matching_tuple_handler 2
      (fun args (e : Nat) => (args, e))
      [VPtr.construct 0 [1, 2] conv_eq 2 (7 : Nat),
       VPtr.construct 0 [1, 2] conv_eq 0 (8 : Nat)] 99 rfl (by decide) (by decide)⟩

/-- Manual nested double dispatch, written the way the spec describes it:
single-dispatch on `r0` to resolve its value, then inside that handler
single-dispatch on `r1`, then invoke the MultiVisitor on the two resolved
values in order. -/
def nested_double_dispatch (M : List (TypeId × α) → β) (r0 r1 : VPtr α) : β :=
  r0.visit (fun U0 x0 (_ : Unit) =>
    r1.visit (fun U1 x1 (_ : Unit) => M [(U0, x0), (U1, x1)]) ()) ()

/-- C3: the 2-ary multi-dispatch of a MultiVisitor over `(r0, r1)` equals the
value obtained by dispatching on `r0`'s held type and, inside that handler,
dispatching on `r1`'s held type and invoking the MultiVisitor on the two
resolved values in order. -/
theorem C3_multi_dispatch_eq_nested_single_dispatch
    (M : List (TypeId × α) → β) (r0 r1 : VPtr α) :
    apply_visitor M r0 [r1] = nested_double_dispatch M r0 r1 := by
  rw [apply_visitor_eq]
  unfold nested_double_dispatch
  rw [VPtr.visit_eq_resolved, VPtr.visit_eq_resolved]
  simp [VPtr.resolved]

/-- C4 counterexample: over Type Set `{0, 1}` with no conversions at all,
constructing from a value of type `5` (convertible to no member) is not
rejected: it silently yields a live reference carrying the in-range tag `1`,
contradicting "detected as a static failure, never silently produces a
tag". -/
theorem C4_counterexample :
    (VPtr.construct 0 [1] conv_none 5 (7 : Nat)).type_index = 1 ∧
    (VPtr.construct 0 [1] conv_none 5 (7 : Nat)).type_index < 2 := by
  decide

/-- C4 (amended): constructing (or resetting) with a pointer to a type `X`
convertible to no member of the Type Set is not detected at all: the `size_t`
arithmetic wraps the computed index around to `N - 1`, so a live Tagged
Reference with that in-range tag is silently produced, bound to the last slot;
only the sentinel value `2^64 - 1` itself is never stored. -/
theorem C4_no_match_silently_binds_last_slot (conv : Conv) (X ty0 : TypeId)
    (rest : List TypeId) (ptr : α)
    (hlen : (ty0 :: rest).length < szMod)
    (hnone : ∀ Y ∈ ty0 :: rest, conv X Y = false) :
    (VPtr.construct ty0 rest conv X ptr).type_index = (ty0 :: rest).length - 1 ∧
    (VPtr.construct ty0 rest conv X ptr).type_index ≠ szMod - 1 := by
  have h := index_of_type_of_no_match conv X (ty0 :: rest)
    (List.cons_ne_nil _ _) hlen hnone
  have hix : (VPtr.construct ty0 rest conv X ptr).type_index =
      index_of_type conv X (ty0 :: rest) := rfl
  constructor
  · rw [hix, h]
  · rw [hix, h]
    simp only [List.length_cons] at hlen ⊢
    omega

/-- C4 witness: Type Set `{3, 4}` with no conversions, candidate type `9`: the
stored tag is `1` (the last slot), not the sentinel. -/
theorem C4_witness :
    (([3, 4] : List TypeId).length < szMod ∧
      ∀ Y ∈ ([3, 4] : List TypeId), conv_none 9 Y = false) ∧
    (VPtr.construct 3 [4] conv_none 9 (0 : Nat)).type_index =
        ([3, 4] : List TypeId).length - 1 ∧
    (VPtr.construct 3 [4] conv_none 9 (0 : Nat)).type_index ≠ szMod - 1 :=
  ⟨⟨by decide, by decide⟩,
    C4_no_match_silently_binds_last_slot conv_none 9 3 [4] 0 (by decide) (by decide)⟩

/-- C5: for a candidate type convertible to at least one member, the tag
computed by `reset` (and hence by construction, which delegates to it) is the
index of the first member, scanning left to right from position 0, to which
the candidate is convertible. -/
theorem C5_tag_is_first_convertible_index (conv : Conv) (X : TypeId)
    (v : VPtr α) (ptr : α)
    (hlen : (v.ty0 :: v.tyRest).length < szMod)
    (hconv : ∃ Y ∈ v.ty0 :: v.tyRest, conv X Y = true) :
    (v.reset conv X ptr).type_index = (v.ty0 :: v.tyRest).findIdx (conv X) ∧
    (VPtr.construct v.ty0 v.tyRest conv X ptr).type_index =
      (v.ty0 :: v.tyRest).findIdx (conv X) := by
  have h := index_of_type_eq_findIdx conv X (v.ty0 :: v.tyRest) hlen hconv
  exact ⟨h, h⟩

/-- C5 witness: set `{0, 1, 2}` with exact-match conversions and candidate
`2`: the tag is `findIdx`, namely position 2. -/
theorem C5_witness :
    (([0, 1, 2] : List TypeId).length < szMod ∧
      ∃ Y ∈ ([0, 1, 2] : List TypeId), conv_eq 2 Y = true) ∧
    ((VPtr.mk 0 [1, 2] (0 : Nat) 0).reset conv_eq 2 5).type_index =
        ([0, 1, 2] : List TypeId).findIdx (conv_eq 2) ∧
    (VPtr.construct 0 [1, 2] conv_eq 2 (5 : Nat)).type_index =
        ([0, 1, 2] : List TypeId).findIdx (conv_eq 2) :=
  ⟨⟨by decide, by decide⟩,
    C5_tag_is_first_convertible_index conv_eq 2 (VPtr.mk 0 [1, 2] (0 : Nat) 0) 5
      (by decide) (by decide)⟩

/-- C6 counterexample: Type Set `{long = 0, int = 1}` with `int` convertible
to `long`; a reference constructed over an `int` value has
`has_type<int>() = false` (the stored tag selects the `long` slot),
contradicting the claim's `holdsExactly<T>() == true`. -/
theorem C6_counterexample :
    (VPtr.construct 0 [1] conv_int_long 1 (42 : Nat)).has_type 1 = false := by
  decide

/-- C6 (amended): for members `T ≠ T'` of a Type Set, a reference constructed
over a `T` value satisfies `has_type T = true` and `has_type T' = false`
provided the slot selected for `T` at construction (the first member `T` is
convertible to) holds exactly `T` — in particular whenever the members are
pairwise non-convertible.  When `T` converts to an earlier member, as in the
counterexample, `has_type T` is false instead. -/
theorem C6_holds_exactly_of_exact_slot (conv : Conv) (T Tother ty0 : TypeId)
    (rest : List TypeId) (ptr : α)
    (hidx : index_of_type conv T (ty0 :: rest) < (ty0 :: rest).length)
    (hslot : (ty0 :: rest).getD (index_of_type conv T (ty0 :: rest)) ty0 = T)
    (hne : Tother ≠ T) :
    (VPtr.construct ty0 rest conv T ptr).has_type T = true ∧
    (VPtr.construct ty0 rest conv T ptr).has_type Tother = false := by
  have hs : (VPtr.construct ty0 rest conv T ptr).slot_type = T := by
    simp only [VPtr.construct, VPtr.reset, VPtr.slot_type]
    exact hslot
  constructor
  · rw [VPtr.has_type_eq_slot (VPtr.construct ty0 rest conv T ptr) T hidx, hs]
    simp
  · rw [VPtr.has_type_eq_slot (VPtr.construct ty0 rest conv T ptr) Tother hidx, hs]
    simp [hne]

/-- C6 witness: set `{0, 1, 2}` with exact-match conversions; a reference over
a Paper value (`1`) reports `has_type 1 = true` and `has_type 2 = false`. -/
theorem C6_witness :
    (index_of_type conv_eq 1 [0, 1, 2] < ([0, 1, 2] : List TypeId).length ∧
      ([0, 1, 2] : List TypeId).getD (index_of_type conv_eq 1 [0, 1, 2]) 0 = 1 ∧
      (2 : TypeId) ≠ 1) ∧
    (VPtr.construct 0 [1, 2] conv_eq 1 (5 : Nat)).has_type 1 = true ∧
    (VPtr.construct 0 [1, 2] conv_eq 1 (5 : Nat)).has_type 2 = false :=
  ⟨⟨by decide, by decide, by decide⟩,
    C6_holds_exactly_of_exact_slot conv_eq 1 2 0 [1, 2] 5
      (by decide) (by decide) (by decide)⟩

/-- C7: in the rock-paper-scissors domain (`Rock = 0`, `Paper = 1`,
`Scissors = 2`, Type Set `{0, 1, 2}`), the 2-ary multi-dispatch of `LosesTo`
over references holding (Paper, Rock) returns `false`, and over references
holding (Rock, Paper) returns `true`. -/
theorem C7_rps_loses_to_dispatch :
    apply_visitor loses_to_mv (VPtr.construct 0 [1, 2] conv_eq 1 (0 : Nat))
        [VPtr.construct 0 [1, 2] conv_eq 0 (0 : Nat)] = false ∧
    apply_visitor loses_to_mv (VPtr.construct 0 [1, 2] conv_eq 0 (0 : Nat))
        [VPtr.construct 0 [1, 2] conv_eq 1 (0 : Nat)] = true := by
  decide

/-- C8: the multi-dispatch entry point succeeds exactly when the explicitly
stated arity `K` equals the number of Tagged References supplied (and at least
one reference is needed); any mismatch is rejected before dispatch, modelling
the specialization-time failure. -/
theorem C8_arity_mismatch_is_rejected (K : Nat)
    (M : List (TypeId × α) → ε → β) (refs : List (VPtr α)) (extras : ε) :
    (apply_multi_visitor K M refs extras).isSome = true ↔
      refs.length = K ∧ 1 ≤ K := by
  cases refs with
  | nil =>
      simp only [apply_multi_visitor, List.length_nil, ite_self,
        Option.isSome_none, Bool.false_eq_true, false_iff]
      omega
  | cons v vs =>
      by_cases h : (v :: vs).length = K
      · simp only [apply_multi_visitor, if_pos h, Option.isSome_some, true_iff]
        refine ⟨h, ?_⟩
        simp only [List.length_cons] at h
        omega
      · simp only [apply_multi_visitor, if_neg h, Option.isSome_none,
          Bool.false_eq_true, false_iff]
        intro hc
        exact h hc.1

/-- C9: for a reference whose stored tag is in range, the `visit` scan always
matches a slot before the type list is exhausted — the defensive
empty-type-list fallback branch never executes — and `visit` returns the
matched slot's handler result. -/
theorem C9_fallback_never_runs (v : VPtr α) (visitor : TypeId → α → ε → β)
    (extras : ε) (h : v.type_index < (v.ty0 :: v.tyRest).length) :
    scan_hits_fallback (v.ty0 :: v.tyRest).length v.type_index
        (v.ty0 :: v.tyRest) = false ∧
    v.visit visitor extras = visitor v.slot_type v.p extras := by
  refine ⟨scan_hits_fallback_eq_false _ _ (v.ty0 :: v.tyRest) (le_refl _)
    (by omega) h, ?_⟩
  rw [VPtr.visit_eq_resolved, VPtr.resolved_type_eq_slot v h]

/-- C9 witness: a reference over `{0, 1, 2}` with tag 2: the scan does not
fall through, and `visit` invokes slot 2's handler. -/
theorem C9_witness :
    ((2 : Nat) < (([0, 1, 2] : List TypeId)).length) ∧
    scan_hits_fallback 3 2 [0, 1, 2] = false ∧
    (VPtr.mk 0 [1, 2] (7 : Nat) 2).visit (fun U x (_ : Unit) => (U, x)) () =
      ((VPtr.mk 0 [1, 2] (7 : Nat) 2).slot_type, 7) :=
  ⟨by decide,
    C9_fallback_never_runs (VPtr.mk 0 [1, 2] (7 : Nat) 2)
      (fun U x (_ : Unit) => (U, x)) () (by decide)⟩

/-- C10: for every Type Set (nonempty, of realizable size) and every candidate
type whatsoever, the tag computed by `reset` lies in `[0, N)`; in particular,
when the candidate converts to no member the index wraps around to `N - 1`,
silently binding the reference to the last slot. -/
theorem C10_tag_always_in_range (conv : Conv) (X : TypeId) (v : VPtr α)
    (ptr : α) (hlen : (v.ty0 :: v.tyRest).length < szMod) :
    (v.reset conv X ptr).type_index < (v.ty0 :: v.tyRest).length ∧
    ((∀ Y ∈ v.ty0 :: v.tyRest, conv X Y = false) →
      (v.reset conv X ptr).type_index = (v.ty0 :: v.tyRest).length - 1) := by
  constructor
  · exact index_of_type_lt conv X (v.ty0 :: v.tyRest) (List.cons_ne_nil _ _) hlen
  · intro hnone
    exact index_of_type_of_no_match conv X (v.ty0 :: v.tyRest)
      (List.cons_ne_nil _ _) hlen hnone

/-- C10 witness: set `{5, 6}` with no conversions, candidate `9`: the tag is
in range and equals `N - 1 = 1`. -/
theorem C10_witness :
    (([5, 6] : List TypeId).length < szMod) ∧
    ((VPtr.mk 5 [6] (1 : Nat) 0).reset conv_none 9 3).type_index <
        ([5, 6] : List TypeId).length ∧
    ((VPtr.mk 5 [6] (1 : Nat) 0).reset conv_none 9 3).type_index =
        ([5, 6] : List TypeId).length - 1 :=
  ⟨by decide,
    (C10_tag_always_in_range conv_none 9 (VPtr.mk 5 [6] (1 : Nat) 0) 3
      (by decide)).1,
    (C10_tag_always_in_range conv_none 9 (VPtr.mk 5 [6] (1 : Nat) 0) 3
      (by decide)).2 (by decide)⟩

end VariantPtr
